import Mathlib

/-!
Verification development for the commensal-automator coordinator.

Shallow embedding of the Python sources:
  * `automator/util.py`      : `retry`, `ra_degrees`, `dec_degrees`
  * `coordinator/rec_util.py`: `get_pkt_idx`, `get_pktstart`, `get_cals`,
    `get_primary_target`, `record`
  * `coordinator/coordinator.py`  : event-loop routing of "RETURN" messages
  * `coordinator_states/proc.py`  : `process` cleanup phase and `rm_datadir`

Conventions used throughout:
  * Python floats (timestamps, degrees) are modelled exactly over `ℚ`;
    all claim tolerances are far larger than float rounding error.
  * Redis values arrive as decoded strings; status hashes are modelled as
    association lists `List (String × String)`.
  * Python string operations are modelled structurally over `List Char`
    (`splitOnChar`, `stripEnds`, `containsSeq`), so every definition is
    executable by kernel reduction.
  * Fallible code (uncaught Python exceptions) is modelled with
    `Except`/`Option` results.
-/

namespace Automator

/-- Python `str.split(sep)` for a single-character separator:
`"".split(c) = [""]`, separators produce empty fields. -/
def splitOnChar (sep : Char) : List Char → List (List Char)
  | [] => [[]]
  | c :: rest =>
    match splitOnChar sep rest with
    | [] => [[c]]
    | h :: t => if c = sep then [] :: h :: t else (c :: h) :: t

/-- Python `str.strip(chars)`: drop characters satisfying `p` from both ends. -/
def stripEnds (p : Char → Bool) (l : List Char) : List Char :=
  ((l.dropWhile p).reverse.dropWhile p).reverse

/-- Python substring test `pat in s` over character lists. -/
def containsSeq (pat : List Char) : List Char → Bool
  | [] => pat.isEmpty
  | c :: rest => pat.isPrefixOf (c :: rest) || containsSeq pat rest

/-- Python dict lookup over an association list (keys unique in a redis hash). -/
def lookupS (k : String) : List (String × String) → Option String
  | [] => none
  | (k', v) :: rest => if k' = k then some v else lookupS k rest

/-- Decimal digit accumulation; `none` on a non-digit (Python `int` raises). -/
def digitsToNatAux (acc : Nat) : List Char → Option Nat
  | [] => some acc
  | c :: r => if c.isDigit then digitsToNatAux (acc * 10 + (c.toNat - 48)) r else none

/-- Python `int` on a character list: optional leading minus, then digits. -/
def intOfChars? : List Char → Option Int
  | [] => none
  | '-' :: r =>
    match r with
    | [] => none
    | _ => (digitsToNatAux 0 r).map (fun n => -(n : Int))
  | l => (digitsToNatAux 0 l).map (fun n => (n : Int))

/-- Python `int(s)` for decimal strings with optional leading minus. -/
def strToInt? (s : String) : Option Int := intOfChars? s.toList

/-- `numpy` parse of a PKTIDX string.  The claims only involve numeric strings;
an unparseable string (which would raise `ValueError` in `np.asarray`) is
given the default 0 here. -/
def toIntD (s : String) : Int := (strToInt? s).getD 0

/-- Canonical printing of a rational used for published float values (the
exact text of a published float is irrelevant to every claim). -/
def qRepr (q : ℚ) : String := Int.repr q.num ++ "/" ++ Nat.repr q.den

/-! ## automator/util.py -/

/-- Outcome of one invocation of the function handed to `retry`
(`util.py` line 95): either it raises, or it returns a value whose Python
truthiness is judged by the caller-supplied predicate. -/
inductive Attempt (α : Type) where
  | raises : Attempt α
  | returns (v : α) : Attempt α

/-- Python truthiness of the `k`-th invocation. -/
def succA {α : Type} (t : α → Bool) (f : Nat → Attempt α) (k : Nat) : Bool :=
  match f k with
  | .raises => false
  | .returns v => t v

/-- Engine of `util.retry` (lines 89-103): run up to `n` more attempts
starting at attempt index `i`; return the first truthy result together with
the number of invocations made.  Thrown faults are caught and counted as
failed attempts; a falsy result sleeps and retries. -/
def retryRun {α : Type} (t : α → Bool) (f : Nat → Attempt α) : Nat → Nat → Option α × Nat
  | 0, _ => (none, 0)
  | n + 1, i =>
    match f i with
    | .raises =>
      let r := retryRun t f n (i + 1)
      (r.1, r.2 + 1)
    | .returns v =>
      if t v then (some v, 1)
      else
        let r := retryRun t f n (i + 1)
        (r.1, r.2 + 1)

/-- `util.retry(retries, delay, function, *args)`: result only.  The `delay`
argument (a `time.sleep` between attempts) does not influence the value. -/
def retry {α : Type} (retries : Nat) (_delay : ℚ) (f : Nat → Attempt α) (t : α → Bool) :
    Option α :=
  (retryRun t f retries 0).1

/-- Number of invocations of the retried function made by `util.retry`. -/
def retryCalls {α : Type} (retries : Nat) (_delay : ℚ) (f : Nat → Attempt α) (t : α → Bool) :
    Nat :=
  (retryRun t f retries 0).2

/-- Python `float` for decimal literals (optional sign, optional single
point); `none` when Python would raise `ValueError`. -/
def parseDecimal (l : List Char) : Option ℚ :=
  match splitOnChar '.' l with
  | [a] => (intOfChars? a).map (fun i => (i : ℚ))
  | [a, b] =>
    match intOfChars? a, digitsToNatAux 0 b with
    | some i, some fr =>
      let mag : ℚ := |(i : ℚ)| + (fr : ℚ) / ((10 : ℚ) ^ b.length)
      some (if a.head? = some '-' then -mag else mag)
    | _, _ => none
  | _ => none

/-- `util.dec_degrees` (lines 105-116): sexagesimal declination string to
degrees; the sign test is `dec[0][0] == '-'` on the degree field. -/
def dec_degrees (dec_s : String) : Option ℚ :=
  match splitOnChar ':' dec_s.toList with
  | d :: m :: sec :: _ =>
    match intOfChars? d, intOfChars? m, parseDecimal sec, d.head? with
    | some di, some mi, some sq, some c0 =>
      if c0 = '-' then some ((di : ℚ) - (mi : ℚ) / 60 - sq / 3600)
      else some ((di : ℚ) + (mi : ℚ) / 60 + sq / 3600)
    | _, _, _, _ => none
  | _ => none

/-- `util.ra_degrees` (lines 118-125): sexagesimal right ascension to
degrees, `h*15 + m*0.25 + s*15/3600`. -/
def ra_degrees (ra_s : String) : Option ℚ :=
  match splitOnChar ':' ra_s.toList with
  | h :: m :: sec :: _ =>
    match intOfChars? h, intOfChars? m, parseDecimal sec with
    | some hi, some mi, some sq =>
      some ((hi : ℚ) * 15 + (mi : ℚ) * (1 / 4) + sq * 15 / 3600)
    | _, _, _ => none
  | _ => none

/-! ## coordinator/rec_util.py -/

/-- `rec_util.PKTIDX_MARGIN` (line 12). -/
def PKTIDX_MARGIN : Int := 2048

/-- `rec_util.DEFAULT_DWELL` (line 14). -/
def DEFAULT_DWELL : Nat := 290

/-- `rec_util.get_pkt_idx` (lines 404-425): read an instance's status hash;
excluded cases (empty hash, missing `NETSTAT`, `NETSTAT == 'idle'`, missing
`PKTIDX`) yield `none` after a warning log — they are not errors. -/
def get_pkt_idx (daq_status : List (String × String)) : Option String :=
  if daq_status.isEmpty then none
  else
    match lookupS "NETSTAT" daq_status with
    | none => none
    | some ns =>
      if ns = "idle" then none
      else
        match lookupS "PKTIDX" daq_status with
        | none => none
        | some p => some p

/-- The `pkt_indices` collection loop of `get_pktstart` (lines 362-369):
instances whose `get_pkt_idx` is falsy (`None` or the empty string) are
skipped with `continue`. -/
def reported (instances : List (List (String × String))) : List String :=
  match instances with
  | [] => []
  | h :: rest =>
    match get_pkt_idx h with
    | none => reported rest
    | some s => if s = "" then reported rest else s :: reported rest

/-- Result dictionary of a successful `get_pktstart` (lines 395-399). -/
structure PktRes where
  pktstart : Int
  pktstart_ts : ℚ
  pktstart_str : String
deriving DecidableEq

/-- `rec_util.get_pktstart` (lines 358-401).

The packet-index → wall-clock conversion `redis_util.pktidx_to_timestamp`
and the `strftime` formatting live outside `src/`; they enter as the
parameters `toTs` and `fmt`, and `datetime.utcnow()` enters as `now`
(seconds, modelled over `ℚ`).  The min/median/max conversions of lines
375-377 feed only a log line and are omitted.  Output: the result of a
successful computation, paired with whether the "bad pktstart" alert of
lines 390-392 was raised. -/
def get_pktstart (toTs : Int → ℚ) (fmt : ℚ → String) (now : ℚ)
    (instances : List (List (String × String))) (margin : Int) :
    Option PktRes × Bool :=
  match reported instances with
  | [] => (none, false)
  | s :: rest =>
    let mx := List.foldl max (toIntD s) (rest.map toIntD)
    let pktstart := mx + margin
    let ts := toTs pktstart
    if 120 < |ts - now| then (none, true)
    else (some ⟨pktstart, ts, fmt ts⟩, false)

/-- `rec_util.get_cals` (lines 302-355), reduced to its decision logic.

Inputs: `ok` is whether the endpoint lookup/parse and the Telstate
connection (lines 307-325) succeeded — any failure there logs and returns
with no write; `lastConfig` is the `<array>:last-config` value (missing key
defaults to 0, lines 329-331); `phaseup` is `TelInt.get_phaseup_time()`;
`st` is the stored `<array>:last-cal` value (missing key defaults to 0,
lines 343-345).  Returns the new stored value together with whether a new
solution set was retrieved (and the store written, line 352). -/
def get_cals (ok : Bool) (lastConfig : Option ℚ) (phaseup : ℚ) (st : Option ℚ) :
    Option ℚ × Bool :=
  if !ok then (st, false)
  else
    let last_config_ts := lastConfig.getD 0
    if phaseup < last_config_ts then (st, false)
    else
      let last_cal_ts := st.getD 0
      if last_cal_ts < phaseup then (some phaseup, true)
      else (st, false)

/-- One `get_cals` invocation viewed as a transition on the stored
`<array>:last-cal` record; inputs bundled as (ok, last-config, phase-up). -/
def calStep (st : Option ℚ) (i : Bool × Option ℚ × ℚ) : Option ℚ :=
  (get_cals i.1 i.2.1 i.2.2 st).1

/-- Return value of a successful `get_primary_target`. -/
structure Target where
  target : String
  ra : String
  dec : String
deriving DecidableEq

/-- The 30 punctuation characters of `rec_util.py` line 288, each mapped to
an underscore by `str.maketrans(punctuation, '_'*30)`; `+` and `-` are
deliberately absent. -/
def punctuationL : List Char :=
  ['!', Char.ofNat 34, '#', '$', '%', '&', Char.ofNat 39, '(', ')', '*',
   ',', '.', '/', ':', ';', '<', '=', '>', '?', '@',
   '[', Char.ofNat 92, ']', '^', '_', Char.ofNat 96, Char.ofNat 123, '|',
   Char.ofNat 125, '~']

/-- `rec_util.get_primary_target` (lines 237-300).

Inputs are the redis values: the `<array>:target` string, the
`<array>:last-target` timestamp and the `<array>:last-track-end` timestamp.
The delimiter (a one-character string at both call sites) is a `Char`.
The under-4-field branch indexes `target[1]`/`target[2]`; a `radec` string
with fewer than 3 comma fields would raise `IndexError` in Python and is
modelled as `none`. -/
def get_primary_target (targetVal : String) (targetTs lastTrackEnd : ℚ)
    (length : Nat) (delimiter : Char) : Option Target :=
  if targetTs < lastTrackEnd - 5 then none
  else
    let target := stripEnds (fun c => c = Char.ofNat 39) targetVal.toList
    if containsSeq "radec".toList target then
      let parts := splitOnChar ',' target
      if parts.length < 4 then
        match parts with
        | _ :: ra :: dec :: _ =>
          some ⟨"NOT_PROVIDED",
                String.mk (stripEnds Char.isWhitespace ra),
                String.mk (stripEnds Char.isWhitespace dec)⟩
        | _ => none
      else
        match parts with
        | t0 :: _ :: ra :: dec :: _ =>
          let name0 := (splitOnChar delimiter t0).headD []
          let name1 := stripEnds Char.isWhitespace name0
          let name2 := stripEnds (fun c => c = ',') name1
          let name3 := name2.map (fun c => if punctuationL.contains c then '_' else c)
          some ⟨String.mk (name3.take length),
                String.mk (stripEnds Char.isWhitespace ra),
                String.mk (stripEnds Char.isWhitespace dec)⟩
        | _ => none
    else none

/-- Inputs of `rec_util.record` (lines 16-120) that arrive from redis,
sensors and the wall clock. -/
structure RecordEnv where
  /-- `<array>:target` value. -/
  targetVal : String
  /-- `<array>:last-target` timestamp. -/
  targetTs : ℚ
  /-- `<array>:last-track-end` timestamp. -/
  lastTrackEnd : ℚ
  /-- Status hashes of the subarray's instances (argument `instances`). -/
  instances : List (List (String × String))
  /-- Modelled from the spec: `redis_util.pktidx_to_timestamp` (not under
  `src/`), the fixed-sample-rate packet-index → wall-clock conversion. -/
  toTs : Int → ℚ
  /-- `strftime("%Y%m%dT%H%M%SZ")` timestamp formatting. -/
  fmt : ℚ → String
  /-- `datetime.utcnow()` in seconds. -/
  now : ℚ
  /-- `centre_freq(r, array)`: `none` when the sensor lookup fails (the
  function logs the exception and returns `None`); otherwise the
  `'{0:.17g}'`-formatted string of line 180(!). -/
  fecenter : Option String
  /-- Subarray name. -/
  array : String

/-- Where `record` stops.  `fmaxType` is the unconditional crash: line 146
computes `centre_freq(r, array) + bandwidth(r, array)/2`, and `centre_freq`
returns a *string* (line 181), so `request_targets` always raises
`TypeError` (even its `None` failure value raises).  Control therefore
never reaches the broken statements after line 86 (line 96 has a stray
colon and line 99 passes 7 arguments, among them the undefined names
`instance` and `datadir`, to the 6-parameter `write_metadata`). -/
inductive RecErr where
  | noTarget | noPktstart | noFecenter | raParse | decParse | fmaxType
deriving DecidableEq

/-- `true` iff `record` ran to completion and returned its success value. -/
def recOk (x : Except RecErr Unit × List (String × String)) : Bool :=
  match x.1 with
  | .ok _ => true
  | .error _ => false

/-- `rec_util.record` (lines 16-120), with the trace of
`redis_util.set_group_key` publications it makes.

Modelled from the spec: `redis_util.set_group_key` (not under `src/`)
publishes one group-addressed key/value update to the subarray's
instances; it is modelled as appending `(key, value)` to the returned
trace, in call order.  The per-instance `DATADIR` values of `set_datadir`
go through `redis_util.gateway_msg` (a per-instance message, not a
group-key update) and the 60-second `get_cals` timer runs in the
background; neither adds to the group-key trace.  Lines 75 and 96 contain
a stray `]` and a stray `:` (syntax slips); their evident statements are
modelled.  Published floats are rendered with `qRepr` (their exact text is
irrelevant to every claim). -/
def record (env : RecordEnv) : Except RecErr Unit × List (String × String) :=
  match (retry 5 5
      (fun _ => Attempt.returns
        (get_primary_target env.targetVal env.targetTs env.lastTrackEnd 16 '|'))
      Option.isSome).join with
  | none => (.error .noTarget, [])
  | some td =>
    let tr0 := [("DWELL", Nat.repr DEFAULT_DWELL)]
    match (get_pktstart env.toTs env.fmt env.now env.instances PKTIDX_MARGIN).1 with
    | none => (.error .noPktstart, tr0)
    | some ps =>
      match env.fecenter with
      | none => (.error .noFecenter, tr0)
      | some _ =>
        let tr1 := tr0 ++ [("SRC_NAME", td.target)]
        match ra_degrees td.ra with
        | none => (.error .raParse, tr1)
        | some ra_d =>
          let tr2 := tr1 ++ [("RA", qRepr ra_d), ("RA_STR", td.ra)]
          match dec_degrees td.dec with
          | none => (.error .decParse, tr2)
          | some dec_d =>
            let obsid := "MeerKAT:" ++ env.array ++ ":" ++ ps.pktstart_str
            let tr3 := tr2 ++ [("DEC", qRepr dec_d), ("DEC_STR", td.dec),
                               ("OBSID", obsid), ("PKTSTART", Int.repr ps.pktstart)]
            (.error .fmaxType, tr3)

/-! ## coordinator/coordinator.py -/

/-- Routing decision of `Coordinator.start` (lines 48-60) together with
`Coordinator.processing_return` (lines 62-68): given the parsed components
of a bus message and the list of configured subarrays (the keys of
`recproc_machines`), return the subarrays whose state machines handle the
event.  A `"RETURN"`-scoped message is handed to *every* machine; any other
message goes only to the machine named by its first component. -/
def dispatch_targets (components : List String) (arrays : List String) : List String :=
  match components with
  | [] => []
  | c :: _ => if c = "RETURN" then arrays else [c]

/-! ## coordinator_states/proc.py -/

/-- `proc.rm_datadir` (lines 166-185).  `rmOk` abstracts whether
`shutil.rmtree` succeeds (on failure the exception is caught and `False`
returned).  First result: `.ok b` models `return b`, `.error ()` models an
uncaught `IndexError` from `components[1]`/`components[2]`.  Second result:
the path handed to `shutil.rmtree`, `none` when no removal was attempted. -/
def rm_datadir (rmOk : Bool) (datadir : String) (instance_number : Nat) :
    Except Unit Bool × Option String :=
  let components := (splitOnChar '/' datadir.toList).map String.mk
  match components.get? 1 with
  | none => (.error (), none)
  | some c =>
    if c ≠ "buf0ro" then (.ok false, none)
    else
      match components.get? 2 with
      | none => (.error (), none)
      | some datadir_id =>
        let rm_path := "/buf" ++ Nat.repr instance_number ++ "/" ++ datadir_id
        (if rmOk then .ok true else .ok false, some rm_path)

/-- `unprocessed.difference(preserved)` of `proc.process` line 149. -/
def to_clean (unprocessed preserved : List String) : List String :=
  unprocessed.filter (fun d => decide (d ∉ preserved))

/-- The data directories that the cleanup loop of `proc.process`
(lines 151-161) hands to `rm_datadir`: members of
`unprocessed.difference(preserved)` whose seticore return code is not
greater than 1 (`if res > 1: continue`). -/
def cleanup_targets (unprocessed preserved : List String) (results : String → Int) :
    List String :=
  (to_clean unprocessed preserved).filter (fun d => decide (results d ≤ 1))

/-! ## Supporting lemmas -/

/-- The maximum `np.max` computes over a packet-index list: `foldl max`
seeded with the head, `none` on an empty list. -/
def maxOf : List Int → Option Int
  | [] => none
  | a :: l => some (List.foldl max a l)

theorem foldl_max_dist (l : List Int) :
    ∀ a x : Int, List.foldl max (max x a) l = max x (List.foldl max a l) := by
  induction l with
  | nil => intro a x; rfl
  | cons c r ih =>
    intro a x
    show List.foldl max (max (max x a) c) r = max x (List.foldl max (max a c) r)
    rw [max_assoc, ih]

theorem maxOf_perm {l₁ l₂ : List Int} (h : List.Perm l₁ l₂) : maxOf l₁ = maxOf l₂ := by
  induction h with
  | nil => rfl
  | cons x p ih =>
    rename_i t1 t2
    cases t1 with
    | nil =>
      cases t2 with
      | nil => rfl
      | cons b m => exact absurd p.length_eq (by simp)
    | cons a l =>
      cases t2 with
      | nil => exact absurd p.length_eq (by simp)
      | cons b m =>
        simp only [maxOf, Option.some.injEq] at ih ⊢
        show List.foldl max (max x a) l = List.foldl max (max x b) m
        rw [foldl_max_dist, foldl_max_dist, ih]
  | swap x y l =>
    simp only [maxOf, Option.some.injEq]
    show List.foldl max (max y x) l = List.foldl max (max x y) l
    rw [max_comm y x]
  | trans _ _ ih1 ih2 => exact ih1.trans ih2

theorem isPrefixOf_append (pat t s : List Char) (h : pat.isPrefixOf t = true) :
    pat.isPrefixOf (t ++ s) = true := by
  induction pat generalizing t with
  | nil => simp [List.isPrefixOf]
  | cons c cs ih =>
    cases t with
    | nil => simp [List.isPrefixOf] at h
    | cons b bs =>
      simp only [List.isPrefixOf, Bool.and_eq_true] at h
      simp only [List.cons_append, List.isPrefixOf, Bool.and_eq_true]
      exact ⟨h.1, ih bs h.2⟩

theorem containsSeq_append_right (pat s t : List Char) (h : containsSeq pat t = true) :
    containsSeq pat (s ++ t) = true := by
  induction s with
  | nil => simpa using h
  | cons c r ih => simp [containsSeq, ih]

theorem containsSeq_append_left (pat t s : List Char) (h : containsSeq pat t = true) :
    containsSeq pat (t ++ s) = true := by
  induction t with
  | nil =>
    cases pat with
    | nil => cases s <;> simp [containsSeq, List.isPrefixOf]
    | cons c cs => simp [containsSeq] at h
  | cons c r ih =>
    simp only [containsSeq, Bool.or_eq_true] at h
    simp only [List.cons_append, containsSeq, Bool.or_eq_true]
    cases h with
    | inl hp => exact Or.inl (isPrefixOf_append _ _ s hp)
    | inr hc => exact Or.inr (ih hc)

theorem exists_append_dropWhile (p : Char → Bool) (l : List Char) :
    ∃ u, u ++ l.dropWhile p = l := by
  induction l with
  | nil => exact ⟨[], rfl⟩
  | cons c r ih =>
    by_cases hc : p c
    · obtain ⟨u, hu⟩ := ih
      refine ⟨c :: u, ?_⟩
      rw [List.dropWhile_cons, if_pos hc]
      simpa using hu
    · exact ⟨[], by rw [List.dropWhile_cons, if_neg hc]; rfl⟩

/-- Stripping characters from both ends of a string cannot create a
substring occurrence that was not already present. -/
theorem containsSeq_stripEnds (pat : List Char) (p : Char → Bool) (l : List Char)
    (h : containsSeq pat (stripEnds p l) = true) : containsSeq pat l = true := by
  unfold stripEnds at h
  obtain ⟨u, hu⟩ := exists_append_dropWhile p (l.dropWhile p).reverse
  have hs : ((l.dropWhile p).reverse.dropWhile p).reverse ++ u.reverse = l.dropWhile p := by
    have h2 := congrArg List.reverse hu
    simpa using h2
  have h3 : containsSeq pat (l.dropWhile p) = true := by
    rw [← hs]
    exact containsSeq_append_left _ _ _ h
  obtain ⟨w, hw⟩ := exists_append_dropWhile p l
  rw [← hw]
  exact containsSeq_append_right _ _ _ h3

theorem retryRun_calls_le {α : Type} (t : α → Bool) (f : Nat → Attempt α) :
    ∀ n i, (retryRun t f n i).2 ≤ n := by
  intro n
  induction n with
  | zero => intro i; simp [retryRun]
  | succ n ih =>
    intro i
    unfold retryRun
    cases hf : f i with
    | raises => simpa using Nat.succ_le_succ (ih (i + 1))
    | returns v =>
      by_cases ht : t v
      · simp [ht]
      · simpa [ht] using Nat.succ_le_succ (ih (i + 1))

theorem retryRun_none {α : Type} (t : α → Bool) (f : Nat → Attempt α) :
    ∀ n i, (∀ j, j < n → succA t f (i + j) = false) →
      retryRun t f n i = (none, n) := by
  intro n
  induction n with
  | zero => intro i _; rfl
  | succ n ih =>
    intro i hall
    have h0 : succA t f i = false := by simpa using hall 0 (Nat.succ_pos n)
    have hrec : retryRun t f n (i + 1) = (none, n) := by
      apply ih
      intro j hj
      have := hall (j + 1) (Nat.succ_lt_succ hj)
      simpa [Nat.add_assoc, Nat.add_comm 1 j] using this
    unfold retryRun
    cases hf : f i with
    | raises => simp [hrec]
    | returns v =>
      have ht : t v = false := by simpa [succA, hf] using h0
      simp [ht, hrec]

theorem retryRun_first {α : Type} (t : α → Bool) (f : Nat → Attempt α) :
    ∀ k n i v, k < n → (∀ j, j < k → succA t f (i + j) = false) →
      f (i + k) = .returns v → t v = true →
      retryRun t f n i = (some v, k + 1) := by
  intro k
  induction k with
  | zero =>
    intro n i v hk _ hf ht
    cases n with
    | zero => exact absurd hk (by simp)
    | succ n =>
      unfold retryRun
      rw [show i + 0 = i from rfl] at hf
      rw [hf]
      simp [ht]
  | succ k ih =>
    intro n i v hk hall hf ht
    cases n with
    | zero => exact absurd hk (by simp)
    | succ n =>
      have h0 : succA t f i = false := by simpa using hall 0 (Nat.succ_pos k)
      have hrec : retryRun t f n (i + 1) = (some v, k + 1) := by
        apply ih n (i + 1) v (Nat.lt_of_succ_lt_succ hk)
        · intro j hj
          have := hall (j + 1) (Nat.succ_lt_succ hj)
          simpa [Nat.add_assoc, Nat.add_comm 1 j] using this
        · simpa [Nat.add_assoc, Nat.add_comm 1 k] using hf
        · exact ht
      unfold retryRun
      cases hfi : f i with
      | raises => simp [hrec]
      | returns w =>
        have htw : t w = false := by simpa [succA, hfi] using h0
        simp [htw, hrec]

theorem calStep_mono (st : Option ℚ) (i : Bool × Option ℚ × ℚ) (x : ℚ)
    (hx : st = some x) : ∃ y, calStep st i = some y ∧ x ≤ y := by
  obtain ⟨ok, lc, p⟩ := i
  subst hx
  unfold calStep get_cals
  by_cases hok : ok
  · simp only [hok, Bool.not_true]
    by_cases h1 : p < lc.getD 0
    · exact ⟨x, by simp [h1], le_refl x⟩
    · by_cases h2 : x < p
      · exact ⟨p, by simp [h1, h2], le_of_lt h2⟩
      · exact ⟨x, by simp [h1, h2], le_refl x⟩
  · simp only [Bool.not_eq_true] at hok
    exact ⟨x, by simp [hok], le_refl x⟩

theorem calFold_mono (steps : List (Bool × Option ℚ × ℚ)) :
    ∀ st x, st = some x → ∃ y, List.foldl calStep st steps = some y ∧ x ≤ y := by
  induction steps with
  | nil => exact fun st x h => ⟨x, by simpa using h, le_refl x⟩
  | cons i rest ih =>
    intro st x h
    obtain ⟨y, hy, hxy⟩ := calStep_mono st i x h
    obtain ⟨z, hz, hyz⟩ := ih (calStep st i) y hy
    exact ⟨z, by simpa using hz, hxy.trans hyz⟩

theorem parseDecimal_pos_eval (l a b : List Char) (i : Int) (fr : Nat)
    (hd : splitOnChar '.' l = [a, b]) (ha : intOfChars? a = some i)
    (hb : digitsToNatAux 0 b = some fr) (hsgn : a.head? ≠ some '-') :
    parseDecimal l = some (|(i : ℚ)| + (fr : ℚ) / ((10 : ℚ) ^ b.length)) := by
  unfold parseDecimal
  rw [hd]
  dsimp only
  rw [ha, hb]
  simp [hsgn]

theorem ra_degrees_eval (s : String) (h m sec : List Char) (hi mi : Int) (sq : ℚ)
    (hs : splitOnChar ':' s.toList = [h, m, sec])
    (hh : intOfChars? h = some hi) (hm : intOfChars? m = some mi)
    (hsec : parseDecimal sec = some sq) :
    ra_degrees s = some ((hi : ℚ) * 15 + (mi : ℚ) * (1 / 4) + sq * 15 / 3600) := by
  unfold ra_degrees
  rw [hs]
  dsimp only
  rw [hh, hm, hsec]

theorem dec_degrees_eval_neg (s : String) (d m sec : List Char) (di mi : Int) (sq : ℚ)
    (hs : splitOnChar ':' s.toList = [d, m, sec])
    (hd : intOfChars? d = some di) (hm : intOfChars? m = some mi)
    (hsec : parseDecimal sec = some sq) (hneg : d.head? = some '-') :
    dec_degrees s = some ((di : ℚ) - (mi : ℚ) / 60 - sq / 3600) := by
  unfold dec_degrees
  rw [hs]
  dsimp only
  rw [hd, hm, hsec, hneg]
  simp

/-- The output of `get_pktstart` depends on the collected packet indices
only through their multiset: instances collected in any order give the
same result. -/
theorem get_pktstart_perm (toTs : Int → ℚ) (fmt : ℚ → String) (now : ℚ) (margin : Int)
    (i1 i2 : List (List (String × String)))
    (h : List.Perm ((reported i1).map toIntD) ((reported i2).map toIntD)) :
    get_pktstart toTs fmt now i1 margin = get_pktstart toTs fmt now i2 margin := by
  unfold get_pktstart
  cases h1 : reported i1 with
  | nil =>
    cases h2 : reported i2 with
    | nil => rfl
    | cons b m =>
      rw [h1, h2] at h
      exact absurd h.length_eq (by simp)
  | cons a l =>
    cases h2 : reported i2 with
    | nil =>
      rw [h1, h2] at h
      exact absurd h.length_eq (by simp)
    | cons b m =>
      rw [h1, h2] at h
      have hmax := maxOf_perm h
      simp only [List.map_cons, maxOf, Option.some.injEq] at hmax
      dsimp only
      rw [hmax]

/-! ## Claim theorems -/

/-- C1: whenever `get_pktstart` returns a packet index, that index equals
the maximum of the reported (collected) indices plus the margin, and the
whole computation is invariant under reordering of the collected indices.
The concrete instance (indices 100/150/200, margin 50, result 250) is
exercised by the witness. -/
theorem get_pktstart_c1 (toTs : Int → ℚ) (fmt : ℚ → String) (now : ℚ)
    (instances : List (List (String × String))) (margin : Int) (res : PktRes)
    (h : (get_pktstart toTs fmt now instances margin).1 = some res) :
    (∀ m, maxOf ((reported instances).map toIntD) = some m →
      res.pktstart = m + margin) ∧
    (∀ instances',
      List.Perm ((reported instances').map toIntD) ((reported instances).map toIntD) →
      get_pktstart toTs fmt now instances' margin =
        get_pktstart toTs fmt now instances margin) := by
  constructor
  · intro m hm
    cases hr : reported instances with
    | nil =>
      rw [get_pktstart, hr] at h
      cases h
    | cons a l =>
      rw [hr] at hm
      simp only [List.map_cons, maxOf, Option.some.injEq] at hm
      rw [get_pktstart, hr] at h
      dsimp only at h
      by_cases hc : 120 < |toTs (List.foldl max (toIntD a) (l.map toIntD) + margin) - now|
      · rw [if_pos hc] at h
        cases h
      · rw [if_neg hc] at h
        dsimp only at h
        have h' := Option.some.inj h
        rw [← h', hm]
  · intro i' hp
    exact get_pktstart_perm toTs fmt now margin i' instances hp

/-- C2: `get_pkt_idx` yields no index for an absent status hash, a hash
without `NETSTAT`, an idle `NETSTAT` or a hash without `PKTIDX`; such
instances are skipped (not errors) by the collection loop; and when the
set of reporting instances is empty `get_pktstart` returns no result (and
no alert) rather than a zero or default start value. -/
theorem get_pktstart_c2 :
    (get_pkt_idx [] = none) ∧
    (∀ h, lookupS "NETSTAT" h = none → get_pkt_idx h = none) ∧
    (∀ h, lookupS "NETSTAT" h = some "idle" → get_pkt_idx h = none) ∧
    (∀ h s, lookupS "NETSTAT" h = some s → s ≠ "idle" →
      lookupS "PKTIDX" h = none → get_pkt_idx h = none) ∧
    (∀ hs rest, get_pkt_idx hs = none → reported (hs :: rest) = reported rest) ∧
    (∀ (toTs : Int → ℚ) (fmt : ℚ → String) (now : ℚ) instances (margin : Int),
      reported instances = [] →
      get_pktstart toTs fmt now instances margin = (none, false)) := by
  refine ⟨rfl, ?_, ?_, ?_, ?_, ?_⟩
  · intro h hn
    unfold get_pkt_idx
    by_cases he : h.isEmpty
    · rw [if_pos he]
    · rw [if_neg he, hn]
  · intro h hn
    unfold get_pkt_idx
    by_cases he : h.isEmpty
    · rw [if_pos he]
    · rw [if_neg he, hn]
      simp
  · intro h s hn hs hp
    unfold get_pkt_idx
    by_cases he : h.isEmpty
    · rw [if_pos he]
    · rw [if_neg he, hn]
      dsimp only
      rw [if_neg (by simpa using hs), hp]
  · intro hs rest hnone
    show (match get_pkt_idx hs with
          | none => reported rest
          | some s => if s = "" then reported rest else s :: reported rest) =
        reported rest
    rw [hnone]
  · intro toTs fmt now instances margin hrep
    unfold get_pktstart
    rw [hrep]

/-- C3: with a non-empty reporting set, if the wall-clock time of the
computed `PKTSTART` deviates from the current time by strictly more than
2 minutes (120 s) the computation returns no result and raises the "bad
pktstart" alert; at a deviation of exactly 2 minutes it does not fail and
the computed result is returned (no alert). -/
theorem get_pktstart_c3 (toTs : Int → ℚ) (fmt : ℚ → String) (now : ℚ)
    (instances : List (List (String × String))) (margin : Int)
    (s : String) (rest : List String) (hrep : reported instances = s :: rest) :
    (120 < |toTs (List.foldl max (toIntD s) (rest.map toIntD) + margin) - now| →
      get_pktstart toTs fmt now instances margin = (none, true)) ∧
    (|toTs (List.foldl max (toIntD s) (rest.map toIntD) + margin) - now| = 120 →
      get_pktstart toTs fmt now instances margin =
        (some ⟨List.foldl max (toIntD s) (rest.map toIntD) + margin,
               toTs (List.foldl max (toIntD s) (rest.map toIntD) + margin),
               fmt (toTs (List.foldl max (toIntD s) (rest.map toIntD) + margin))⟩,
         false)) := by
  constructor
  · intro hgt
    rw [get_pktstart, hrep]
    dsimp only
    rw [if_pos hgt]
  · intro heq
    rw [get_pktstart, hrep]
    dsimp only
    rw [if_neg (by rw [heq]; exact lt_irrefl 120)]

/-- Three active instances reporting packet indices 100, 150, 200. -/
def inst3 : List (List (String × String)) :=
  [[("NETSTAT", "record"), ("PKTIDX", "100")],
   [("NETSTAT", "record"), ("PKTIDX", "150")],
   [("NETSTAT", "record"), ("PKTIDX", "200")]]

/-- The same three instances collected in a different order. -/
def inst3rev : List (List (String × String)) :=
  [[("NETSTAT", "record"), ("PKTIDX", "200")],
   [("NETSTAT", "record"), ("PKTIDX", "100")],
   [("NETSTAT", "record"), ("PKTIDX", "150")]]

/-- Witness for C1: indices {100, 150, 200} with margin 50 give
`PKTSTART = 250 = max + margin`, and collecting them in a different order
gives the identical output. -/
theorem get_pktstart_c1_witness :
    (get_pktstart (fun _ => (0 : ℚ)) (fun _ => "") 0 inst3 50).1 =
      some ⟨250, 0, ""⟩ ∧
    (250 : Int) = 200 + 50 ∧
    get_pktstart (fun _ => (0 : ℚ)) (fun _ => "") 0 inst3rev 50 =
      get_pktstart (fun _ => (0 : ℚ)) (fun _ => "") 0 inst3 50 := by
  have hres : (get_pktstart (fun _ => (0 : ℚ)) (fun _ => "") 0 inst3 50).1 =
      some ⟨250, 0, ""⟩ := by
    have h : reported inst3 = ["100", "150", "200"] := by decide
    rw [get_pktstart, h]
    dsimp only
    rw [if_neg (by norm_num)]
    decide
  have hmain := get_pktstart_c1 (fun _ => (0 : ℚ)) (fun _ => "") 0 inst3 50
    ⟨250, 0, ""⟩ hres
  refine ⟨hres, ?_, ?_⟩
  · have h1 := hmain.1 200 (by decide)
    exact h1
  · exact hmain.2 inst3rev (by decide)

/-- Witness for C2: an idle instance and a hash without `NETSTAT` are
excluded, and a subarray whose only instance is idle yields no `PKTSTART`
(and no alert). -/
theorem get_pktstart_c2_witness :
    get_pkt_idx [("NETSTAT", "idle"), ("PKTIDX", "5")] = none ∧
    get_pkt_idx [("DAQSTATE", "armed")] = none ∧
    get_pkt_idx [("NETSTAT", "record")] = none ∧
    get_pktstart (fun _ => (0 : ℚ)) (fun _ => "") 0
      [[("NETSTAT", "idle"), ("PKTIDX", "5")]] 2048 = (none, false) := by
  refine ⟨get_pktstart_c2.2.2.1 _ (by decide),
          get_pktstart_c2.2.1 _ (by decide),
          get_pktstart_c2.2.2.2.1 _ "record" (by decide) (by decide) (by decide),
          get_pktstart_c2.2.2.2.2.2 _ _ _ _ _ (by decide)⟩

/-- Witness for C3: a single instance at index 100 with margin 50; with a
conversion placing the start 121 s from now the computation fails with an
alert, at exactly 120 s it succeeds. -/
theorem get_pktstart_c3_witness :
    get_pktstart (fun _ => (121 : ℚ)) (fun _ => "") 0
      [[("NETSTAT", "record"), ("PKTIDX", "100")]] 50 = (none, true) ∧
    get_pktstart (fun _ => (120 : ℚ)) (fun _ => "") 0
      [[("NETSTAT", "record"), ("PKTIDX", "100")]] 50 =
      (some ⟨150, 120, ""⟩, false) := by
  constructor
  · exact (get_pktstart_c3 (fun _ => (121 : ℚ)) (fun _ => "") 0
      [[("NETSTAT", "record"), ("PKTIDX", "100")]] 50 "100" [] (by decide)).1
      (by norm_num)
  · have h := (get_pktstart_c3 (fun _ => (120 : ℚ)) (fun _ => "") 0
      [[("NETSTAT", "record"), ("PKTIDX", "100")]] 50 "100" [] (by decide)).2
      (by norm_num)
    rw [h]
    have h150 : List.foldl max (toIntD "100") (List.map toIntD []) + 50 = 150 := by
      decide
    simp only [h150]

/-- C4: `get_cals` writes the stored per-subarray last-cal record only when
the phase-up timestamp is at least the last-configuration timestamp and
strictly greater than the stored value, and then it writes exactly the
phase-up timestamp; consequently across any sequence of invocations the
stored timestamp never decreases. -/
theorem get_cals_c4 :
    (∀ (ok : Bool) (lcfg : Option ℚ) (p : ℚ) (st st' : Option ℚ) (w : Bool),
      get_cals ok lcfg p st = (st', w) →
      (w = true → ok = true ∧ lcfg.getD 0 ≤ p ∧ st.getD 0 < p ∧ st' = some p) ∧
      (w = false → st' = st)) ∧
    (∀ (steps : List (Bool × Option ℚ × ℚ)) (st : Option ℚ) (x : ℚ), st = some x →
      ∃ y, List.foldl calStep st steps = some y ∧ x ≤ y) := by
  constructor
  · intro ok lcfg p st st' w hcal
    unfold get_cals at hcal
    by_cases hok : ok
    · rw [hok] at hcal
      simp only [Bool.not_true, Bool.false_eq_true, if_false] at hcal
      by_cases h1 : p < lcfg.getD 0
      · rw [if_pos h1] at hcal
        obtain ⟨h2, h3⟩ := Prod.mk.injEq .. ▸ hcal
        constructor
        · intro hw; rw [hw] at h3; cases h3
        · intro _; exact h2.symm
      · rw [if_neg h1] at hcal
        by_cases h2 : st.getD 0 < p
        · rw [if_pos h2] at hcal
          obtain ⟨h3, h4⟩ := Prod.mk.injEq .. ▸ hcal
          constructor
          · intro _; exact ⟨hok, le_of_not_lt h1, h2, h3.symm⟩
          · intro hw; rw [← h4] at hw; cases hw
        · rw [if_neg h2] at hcal
          obtain ⟨h3, h4⟩ := Prod.mk.injEq .. ▸ hcal
          constructor
          · intro hw; rw [← h4] at hw; cases hw
          · intro _; exact h3.symm
    · simp only [Bool.not_eq_true] at hok
      rw [hok] at hcal
      simp only [Bool.not_false, if_true] at hcal
      obtain ⟨h2, h3⟩ := Prod.mk.injEq .. ▸ hcal
      constructor
      · intro hw; rw [← h3] at hw; cases hw
      · intro _; exact h2.symm
  · exact fun steps st x h => calFold_mono steps st x h

/-- Witness for C4: starting from a stored value 15, a phase-up at 20
(config at 10) advances the record to exactly 20, and a later, older
phase-up at 18 leaves it at 20; the final value 20 is at least the
initial 15. -/
theorem get_cals_c4_witness :
    get_cals true (some 10) 20 (some 15) = (some 20, true) ∧
    List.foldl calStep (some (15 : ℚ)) [(true, some 10, 20), (true, some 10, 18)] =
      some 20 ∧
    (15 : ℚ) ≤ 20 := by
  have heval : get_cals true (some 10) 20 (some 15) = (some 20, true) := by
    unfold get_cals
    norm_num
  have hfold : List.foldl calStep (some (15 : ℚ))
      [(true, some 10, 20), (true, some 10, 18)] = some 20 := by
    show List.foldl calStep (some (15 : ℚ)) [(true, some 10, 20), (true, some 10, 18)] =
      some 20
    simp only [List.foldl, calStep, get_cals]
    norm_num
  have hw := (get_cals_c4.1 true (some 10) 20 (some 15) (some 20) true heval).1 rfl
  obtain ⟨y, hy, hxy⟩ := get_cals_c4.2 [(true, some 10, 20), (true, some 10, 18)]
    (some 15) 15 rfl
  rw [hfold] at hy
  have hy20 : y = 20 := (Option.some.inj hy).symm
  exact ⟨heval, hfold, hy20 ▸ hxy⟩

/-- C6: `util.retry` invokes the supplied operation at most `n` times; a
thrown fault counts as a failed attempt; the first truthy result is
returned immediately (after exactly that many invocations); exhausting all
attempts yields no result instead of an exception.  In particular an
operation that fails twice and then succeeds yields its success value for
any retry count at least 3 and no result for retry count 2. -/
theorem retry_c6 {α : Type} (t : α → Bool) (f : Nat → Attempt α) (n : Nat) (d : ℚ) :
    retryCalls n d f t ≤ n ∧
    (∀ k v, k < n → (∀ j, j < k → succA t f j = false) →
      f k = .returns v → t v = true →
      retry n d f t = some v ∧ retryCalls n d f t = k + 1) ∧
    ((∀ j, j < n → succA t f j = false) → retry n d f t = none) ∧
    (∀ v, t v = true →
      (∀ n', 3 ≤ n' →
        retry n' d (fun i => if i < 2 then .raises else .returns v) t = some v) ∧
      retry 2 d (fun i => if i < 2 then .raises else .returns v) t = none) := by
  refine ⟨retryRun_calls_le t f n 0, ?_, ?_, ?_⟩
  · intro k v hk hall hf ht
    have h := retryRun_first t f k n 0 v hk (by simpa using hall) (by simpa using hf) ht
    unfold retry retryCalls
    rw [h]
    exact ⟨rfl, rfl⟩
  · intro hall
    unfold retry
    rw [retryRun_none t f n 0 (by simpa using hall)]
  · intro v htv
    constructor
    · intro n' hn'
      have h := retryRun_first t (fun i => if i < 2 then .raises else .returns v)
        2 n' 0 v hn' ?_ ?_ htv
      · unfold retry
        rw [h]
      · intro j hj
        unfold succA
        simp [hj]
      · simp
    · unfold retry
      rw [retryRun_none t _ 2 0 ?_]
      intro j hj
      unfold succA
      simp [hj]

/-- Witness for C6: the concrete fail-twice-then-succeed operation over
`Nat` with Python truthiness `0 < v`: retry counts 3 and 4 return the
success value 7, retry count 2 returns nothing, and a full run of 2
attempts makes exactly 2 invocations. -/
theorem retry_c6_witness :
    retry 3 5 (fun i => if i < 2 then .raises else .returns 7)
      (fun v : Nat => decide (0 < v)) = some 7 ∧
    retry 4 5 (fun i => if i < 2 then .raises else .returns 7)
      (fun v : Nat => decide (0 < v)) = some 7 ∧
    retry 2 5 (fun i => if i < 2 then .raises else .returns 7)
      (fun v : Nat => decide (0 < v)) = none ∧
    retryCalls 2 5 (fun i => if i < 2 then .raises else .returns 7)
      (fun v : Nat => decide (0 < v)) ≤ 2 := by
  have hpart := (retry_c6 (fun v : Nat => decide (0 < v))
    (fun i => if i < 2 then .raises else .returns 7) 2 5).2.2.2 7 (by decide)
  refine ⟨hpart.1 3 (by norm_num), hpart.1 4 (by norm_num), hpart.2, ?_⟩
  exact (retry_c6 (fun v : Nat => decide (0 < v))
    (fun i => if i < 2 then .raises else .returns 7) 2 5).1

/-- C7: on the documented target string with length 68 and a non-stale
timestamp, `get_primary_target` extracts name `J0918-1205`, RA string
`9:18:05.28` and Dec string `-12:05:48.9`; any target string that does not
contain `radec` yields no result; and a stale target timestamp (before the
prior track's end minus the 5-second grace window) yields no result
regardless of the string. -/
theorem get_primary_target_c7 :
    (∀ ts lte : ℚ, ¬(ts < lte - 5) →
      get_primary_target "J0918-1205 | Hyd A, radec, 9:18:05.28, -12:05:48.9"
        ts lte 68 '|' = some ⟨"J0918-1205", "9:18:05.28", "-12:05:48.9"⟩) ∧
    (∀ (s : String) (ts lte : ℚ) (len : Nat) (d : Char),
      containsSeq "radec".toList s.toList = false →
      get_primary_target s ts lte len d = none) ∧
    (∀ (s : String) (ts lte : ℚ) (len : Nat) (d : Char), ts < lte - 5 →
      get_primary_target s ts lte len d = none) := by
  refine ⟨?_, ?_, ?_⟩
  · intro ts lte hfresh
    unfold get_primary_target
    rw [if_neg hfresh]
    decide
  · intro s ts lte len d hnoradec
    unfold get_primary_target
    by_cases hstale : ts < lte - 5
    · rw [if_pos hstale]
    · rw [if_neg hstale]
      have hb : containsSeq "radec".toList
          (stripEnds (fun c => c = Char.ofNat 39) s.toList) = false := by
        by_contra hc
        rw [Bool.not_eq_false] at hc
        have h2 := containsSeq_stripEnds "radec".toList
          (fun c => c = Char.ofNat 39) s.toList hc
        rw [hnoradec] at h2
        cases h2
      dsimp only
      rw [hb]
      simp
  · intro s ts lte len d hstale
    unfold get_primary_target
    rw [if_pos hstale]

/-- Witness for C7: the documented target string with fresh timestamps; a
string without `radec`; and a stale timestamp. -/
theorem get_primary_target_c7_witness :
    get_primary_target "J0918-1205 | Hyd A, radec, 9:18:05.28, -12:05:48.9"
      100 100 68 '|' = some ⟨"J0918-1205", "9:18:05.28", "-12:05:48.9"⟩ ∧
    get_primary_target "azimuth, 9:18:05.28, -12:05:48.9" 100 100 68 '|' = none ∧
    get_primary_target "J0918-1205 | Hyd A, radec, 9:18:05.28, -12:05:48.9"
      0 100 68 '|' = none := by
  refine ⟨get_primary_target_c7.1 100 100 (by norm_num),
          get_primary_target_c7.2.1 _ 100 100 68 '|' (by decide),
          get_primary_target_c7.2.2 _ 0 100 68 '|' (by norm_num)⟩

/-- C8 counterexample: `ra_degrees "9:18:05.28"` evaluates to exactly
139.522° = 69761/500, which differs from the claimed 139.7720° by 0.25°,
far more than the 1e-3 tolerance. -/
theorem ra_degrees_c8_counterexample :
    ra_degrees "9:18:05.28" = some (69761 / 500 : ℚ) ∧
    ¬(|(69761 / 500 : ℚ) - 139772 / 1000| ≤ 1 / 1000) := by
  constructor
  · rw [ra_degrees_eval "9:18:05.28" ['9'] ['1', '8'] ['0', '5', '.', '2', '8']
      9 18 (132 / 25) (by decide) (by decide) (by decide)
      ((parseDecimal_pos_eval _ ['0', '5'] ['2', '8'] 5 28 (by decide) (by decide)
        (by decide) (by decide)).trans (by norm_num))]
    norm_num
  · intro habs
    have h1 : (69761 / 500 : ℚ) - 139772 / 1000 = -(1 / 4) := by norm_num
    rw [h1, abs_neg, abs_of_pos (by norm_num)] at habs
    norm_num at habs

/-- C8 amended: `ra_degrees "9:18:05.28"` is 139.5220° to within 1e-3 and
`dec_degrees "-12:05:48.9"` is −12.09692° to within 1e-3. -/
theorem ra_dec_degrees_c8_amended :
    (ra_degrees "9:18:05.28" = some (69761 / 500 : ℚ) ∧
      |(69761 / 500 : ℚ) - 139522 / 1000| ≤ 1 / 1000) ∧
    (dec_degrees "-12:05:48.9" = some (-145163 / 12000 : ℚ) ∧
      |(-145163 / 12000 : ℚ) - -(1209692 / 100000)| ≤ 1 / 1000) := by
  constructor
  · constructor
    · rw [ra_degrees_eval "9:18:05.28" ['9'] ['1', '8'] ['0', '5', '.', '2', '8']
        9 18 (132 / 25) (by decide) (by decide) (by decide)
        ((parseDecimal_pos_eval _ ['0', '5'] ['2', '8'] 5 28 (by decide) (by decide)
          (by decide) (by decide)).trans (by norm_num))]
      norm_num
    · have h1 : (69761 / 500 : ℚ) - 139522 / 1000 = 0 := by norm_num
      rw [h1]
      norm_num
  · constructor
    · rw [dec_degrees_eval_neg "-12:05:48.9" ['-', '1', '2'] ['0', '5']
        ['4', '8', '.', '9'] (-12) 5 (489 / 10) (by decide) (by decide) (by decide)
        ((parseDecimal_pos_eval _ ['4', '8'] ['9'] 48 9 (by decide) (by decide)
          (by decide) (by decide)).trans (by norm_num)) (by decide)]
      norm_num
    · have h1 : (-145163 / 12000 : ℚ) - -(1209692 / 100000) = 1 / 300000 := by
        norm_num
      rw [h1, abs_of_pos (by norm_num)]
      norm_num

/-- A concrete environment in which every step of `record` up to the
publications succeeds: the documented target, three instances at packet
indices 100/150/200, a conversion placing the start at the current time,
and an available centre-frequency sensor. -/
def env0 : RecordEnv where
  targetVal := "J0918-1205 | Hyd A, radec, 9:18:05.28, -12:05:48.9"
  targetTs := 100
  lastTrackEnd := 100
  instances := inst3
  toTs := fun _ => 0
  fmt := fun _ => "TS"
  now := 0
  fecenter := some "1500"
  array := "array_1"

/-- The group-key publication trace `record env0` produces before it
crashes: `DWELL` first, then the session parameters, `PKTSTART` last
(packet index 200 + margin 2048 = 2248). -/
def trace0 : List (String × String) :=
  [("DWELL", Nat.repr DEFAULT_DWELL),
   ("SRC_NAME", "J0918-1205"),
   ("RA", qRepr (69761 / 500)),
   ("RA_STR", "9:18:05.28"),
   ("DEC", qRepr (-145163 / 12000)),
   ("DEC_STR", "-12:05:48.9"),
   ("OBSID", "MeerKAT:array_1:TS"),
   ("PKTSTART", Int.repr 2248)]

/-- C5: `record` can never complete successfully — as written it always
raises before returning (`request_targets` adds the string returned by
`centre_freq` to a float, and lines 75/96/99 are further slips) — so the
claim's "successful run" premise is unsatisfiable.  The publications the
code does make before crashing are in the claimed order: on a concrete
environment in which target, `PKTSTART` and `FECENTER` all resolve, the
group-key trace is `DWELL, SRC_NAME, RA, RA_STR, DEC, DEC_STR, OBSID,
PKTSTART`, which contains `SRC_NAME, RA, DEC, OBSID, PKTSTART` in that
relative order with `PKTSTART` last. -/
theorem record_c5 :
    (∀ env, recOk (record env) = false) ∧
    record env0 = (.error .fmaxType, trace0) ∧
    trace0.map Prod.fst =
      ["DWELL", "SRC_NAME", "RA", "RA_STR", "DEC", "DEC_STR", "OBSID", "PKTSTART"] ∧
    List.Sublist ["SRC_NAME", "RA", "DEC", "OBSID", "PKTSTART"]
      (trace0.map Prod.fst) ∧
    (trace0.map Prod.fst).getLast? = some "PKTSTART" := by
  refine ⟨?_, ?_, by decide, by decide, by decide⟩
  · intro env
    unfold record
    repeat' split
    all_goals rfl
  · have htgt : get_primary_target env0.targetVal env0.targetTs env0.lastTrackEnd
        16 '|' = some ⟨"J0918-1205", "9:18:05.28", "-12:05:48.9"⟩ := by
      show get_primary_target "J0918-1205 | Hyd A, radec, 9:18:05.28, -12:05:48.9"
        100 100 16 '|' = _
      unfold get_primary_target
      rw [if_neg (by norm_num)]
      decide
    have hretry : (retry 5 5
        (fun _ => Attempt.returns (get_primary_target env0.targetVal env0.targetTs
          env0.lastTrackEnd 16 '|')) Option.isSome).join =
        some ⟨"J0918-1205", "9:18:05.28", "-12:05:48.9"⟩ := by
      simp only [htgt]
      decide
    have hpkt : (get_pktstart env0.toTs env0.fmt env0.now env0.instances
        PKTIDX_MARGIN).1 = some ⟨2248, 0, "TS"⟩ := by
      show (get_pktstart (fun _ => (0 : ℚ)) (fun _ => "TS") 0 inst3 PKTIDX_MARGIN).1 = _
      have h : reported inst3 = ["100", "150", "200"] := by decide
      rw [get_pktstart, h]
      dsimp only
      rw [if_neg (by norm_num)]
      decide
    have hra : ra_degrees "9:18:05.28" = some (69761 / 500 : ℚ) := by
      rw [ra_degrees_eval "9:18:05.28" ['9'] ['1', '8'] ['0', '5', '.', '2', '8']
        9 18 (132 / 25) (by decide) (by decide) (by decide)
        ((parseDecimal_pos_eval _ ['0', '5'] ['2', '8'] 5 28 (by decide) (by decide)
          (by decide) (by decide)).trans (by norm_num))]
      norm_num
    have hdec : dec_degrees "-12:05:48.9" = some (-145163 / 12000 : ℚ) := by
      rw [dec_degrees_eval_neg "-12:05:48.9" ['-', '1', '2'] ['0', '5']
        ['4', '8', '.', '9'] (-12) 5 (489 / 10) (by decide) (by decide) (by decide)
        ((parseDecimal_pos_eval _ ['4', '8'] ['9'] 48 9 (by decide) (by decide)
          (by decide) (by decide)).trans (by norm_num)) (by decide)]
      norm_num
    unfold record
    rw [hretry]
    dsimp only
    rw [hpkt]
    dsimp only
    rw [show env0.fecenter = some "1500" from rfl]
    dsimp only
    rw [hra]
    dsimp only
    rw [hdec]
    dsimp only
    rfl

/-- C9: the event loop hands every message whose first parsed component is
the global `"RETURN"` scope to the state machine of every configured
subarray (`processing_return` iterates over all machines), not only to the
machine of the subarray owning the reporting instance. -/
theorem dispatch_c9 (components arrays rest : List String)
    (h : components = "RETURN" :: rest) :
    dispatch_targets components arrays = arrays ∧
    ∀ a ∈ arrays, a ∈ dispatch_targets components arrays := by
  subst h
  refine ⟨by simp [dispatch_targets], ?_⟩
  intro a ha
  simpa [dispatch_targets] using ha

/-- Witness for C9: a processing-completion message reaches both configured
subarrays. -/
theorem dispatch_c9_witness :
    dispatch_targets ["RETURN", "host0/1", "0"] ["array_1", "array_2"] =
      ["array_1", "array_2"] ∧
    "array_2" ∈ dispatch_targets ["RETURN", "host0/1", "0"] ["array_1", "array_2"] := by
  have h := dispatch_c9 ["RETURN", "host0/1", "0"] ["array_1", "array_2"]
    ["host0/1", "0"] rfl
  exact ⟨h.1, h.2 "array_2" (by decide)⟩

/-- C10 counterexample: on the slash-free path `"x"`, the second
slash-separated component does not exist (so it is not `buf0ro`), yet
`rm_datadir` does not return `False` — it raises `IndexError`
(`components[1]`), modelled as `.error ()`.  Nothing is removed. -/
theorem rm_datadir_c10_counterexample :
    rm_datadir true "x" 0 = (.error (), none) ∧
    ((splitOnChar '/' "x".toList).map String.mk).get? 1 = none ∧
    (rm_datadir true "x" 0).1.isOk = false := by
  refine ⟨rfl, by decide, rfl⟩

/-- C10 amended: the cleanup loop never hands a preserved data directory,
nor one whose seticore code exceeds 1, to `rm_datadir`; `rm_datadir`
removes nothing and returns `False` whenever the path has a second
slash-separated component different from `buf0ro`; and on a path with no
second component it raises `IndexError` (removing nothing) instead of
returning `False`. -/
theorem proc_cleanup_c10 :
    (∀ (u p : List String) (res : String → Int) (d : String),
      d ∈ p → d ∉ cleanup_targets u p res) ∧
    (∀ (u p : List String) (res : String → Int) (d : String),
      1 < res d → d ∉ cleanup_targets u p res) ∧
    (∀ (rmOk : Bool) (d : String) (n : Nat) (c : String),
      ((splitOnChar '/' d.toList).map String.mk).get? 1 = some c →
      c ≠ "buf0ro" → rm_datadir rmOk d n = (.ok false, none)) ∧
    (∀ (rmOk : Bool) (d : String) (n : Nat),
      ((splitOnChar '/' d.toList).map String.mk).get? 1 = none →
      rm_datadir rmOk d n = (.error (), none)) := by
  refine ⟨?_, ?_, ?_, ?_⟩
  · intro u p res d hdp hmem
    simp only [cleanup_targets, to_clean, List.mem_filter] at hmem
    exact (of_decide_eq_true hmem.1.2) hdp
  · intro u p res d hres hmem
    simp only [cleanup_targets, to_clean, List.mem_filter] at hmem
    exact absurd (of_decide_eq_true hmem.2) (not_le_of_lt hres)
  · intro rmOk d n c hc hne
    unfold rm_datadir
    dsimp only
    rw [hc]
    dsimp only
    rw [if_pos hne]
  · intro rmOk d n hc
    unfold rm_datadir
    dsimp only
    rw [hc]

/-- Witness for C10 (amended): a preserved directory is not handed to
removal, a directory with seticore code 2 is not handed to removal, and a
path whose second component is `data` (not `buf0ro`) yields `False` with
no removal. -/
theorem proc_cleanup_c10_witness :
    rm_datadir true "/data/x" 0 = (.ok false, none) ∧
    (cleanup_targets ["a", "b"] ["a"] (fun _ => 0)).contains "a" = false ∧
    (cleanup_targets ["a", "b"] [] (fun _ => 2)).contains "b" = false := by
  refine ⟨proc_cleanup_c10.2.2.1 true "/data/x" 0 "data" (by decide) (by decide), ?_, ?_⟩
  · have h := proc_cleanup_c10.1 ["a", "b"] ["a"] (fun _ => 0) "a" (by decide)
    revert h
    decide
  · have h := proc_cleanup_c10.2.1 ["a", "b"] [] (fun _ => 2) "b" (by norm_num)
    revert h
    decide

end Automator
